import Mathlib

/-!
Shallow embedding of the ThermoFun model-dispatch engine
(`src/ThermoEngine.cpp`, `src/Database.cpp`,
`ThermoFun/Common/OutputWaterSteamConventionProp.cpp`).

Conventions of the embedding:
* C++ `double` values are modelled as `ℚ` (exact arithmetic; the dispatch
  logic under verification performs only field accesses, `+`, `-`, `*`, `/`).
* The individual physical model formulas (EmpiricalCpIntegration, HKF,
  water/steam EoS, ...) are outside the verified sources and are declared
  black boxes: the engine carries them as function-valued fields of a
  `Models` record, mirroring how the C++ engine constructs model objects
  and calls their `thermoProperties` members.
* Fallible C++ code (exceptions raised by `RaiseError`) is modelled with
  `Except ThermoError`.
* The mutual recursion between substance evaluation and reaction-derived
  substance evaluation is made terminating with an explicit fuel counter;
  `ThermoError.outOfFuel` is an artefact of the embedding and corresponds
  to the unbounded recursion possible on cyclic record data.
-/

namespace ThermoFun

/-- Generic-EoS method codes (`MethodGenEoS_Thrift::type`) appearing in the
dispatch logic, plus a representative `CTPM_OTHER` for every code that no
branch of the engine handles. -/
inductive MethodGenEoS where
  | CTPM_CPT
  | CTPM_HKF
  | CTPM_HKFR
  | CTPM_WJNR
  | CTPM_WJNG
  | CTPM_WSV14
  | CTPM_WF97
  | CTPM_OTHER
  deriving DecidableEq, Repr, Inhabited

/-- Temperature-correction method codes (`MethodCorrT_Thrift::type`)
appearing in the dispatch logic, plus a representative `CTM_OTHER` for every
unhandled code. -/
inductive MethodCorrT where
  | CTM_CHP
  | CTM_WAT
  | CTM_WAR
  | CTM_WWP
  | CTM_WZD
  | CTM_LGX
  | CTM_LGK
  | CTM_EK0
  | CTM_EK1
  | CTM_EK2
  | CTM_EK3
  | CTM_DKR
  | CTM_MRB
  | CTM_IKZ
  | CTM_OTHER
  deriving DecidableEq, Repr, Inhabited

/-- Pressure-correction method codes (`MethodCorrP_Thrift::type`) appearing
in the dispatch logic, plus a representative `CPM_OTHER` for every unhandled
code. -/
inductive MethodCorrP where
  | CPM_AKI
  | CPM_CEH
  | CPM_VBE
  | CPM_VBM
  | CPM_CORK
  | CPM_PRSV
  | CPM_EMP
  | CPM_SRK
  | CPM_PR78
  | CPM_STP
  | CPM_CON
  | CPM_OFF
  | CPM_GAS
  | CPM_VKE
  | CPM_NUL
  | CPM_OTHER
  deriving DecidableEq, Repr, Inhabited

/-- Aggregate state of a substance (`AggregateState::type`); only `GAS` is
inspected by the engine (to pick the solvent state). -/
inductive AggregateState where
  | GAS
  | LIQUID
  | AQUEOUS
  | SOLID
  | OTHER
  deriving DecidableEq, Repr, Inhabited

/-- Substance class (`SubstanceClass::type`); only `AQSOLVENT` is inspected
by the engine. -/
inductive SubstanceClass where
  | COMPONENT
  | AQSOLVENT
  | OTHER
  deriving DecidableEq, Repr, Inhabited

/-- Thermodynamic calculation type (`SubstanceThermoCalculationType::type`);
`REACDC` marks a reaction-derived substance. -/
inductive SubstanceThermoCalculationType where
  | DCOMP
  | REACDC
  | OTHER
  deriving DecidableEq, Repr, Inhabited

/-- A substance record as consumed by the engine: the fields returned by the
accessors `symbol()`, `name()`, `formula()`, `aggregateState()`,
`substanceClass()`, `methodGenEOS()`, `method_T()`, `method_P()`,
`thermoCalculationType()`, `reactionSymbol()`, `referenceT()`,
`referenceP()`. -/
structure Substance where
  symbol : String := ""
  name : String := ""
  formula : String := ""
  aggregateState : AggregateState := .SOLID
  substanceClass : SubstanceClass := .COMPONENT
  methodGenEOS : MethodGenEoS := .CTPM_OTHER
  method_T : MethodCorrT := .CTM_OTHER
  method_P : MethodCorrP := .CPM_OTHER
  thermoCalculationType : SubstanceThermoCalculationType := .DCOMP
  reactionSymbol : String := ""
  referenceT : ℚ := 0
  referenceP : ℚ := 0
  deriving DecidableEq, Repr, Inhabited

/-- A reaction record as consumed by the engine: `symbol()`, `name()`,
`method_T()`, `method_P()` and the stoichiometry map `reactants()` from
reactant substance symbol to signed coefficient, modelled as an association
list. -/
structure Reaction where
  symbol : String := ""
  name : String := ""
  method_T : MethodCorrT := .CTM_OTHER
  method_P : MethodCorrP := .CPM_OTHER
  reactants : List (String × ℚ) := []
  deriving DecidableEq, Repr, Inhabited

/-- `ThermoPropertiesSubstance`: the flat value object of scalar fields the
engine reads and writes.  Modelled from the spec: the record type itself
lives in a header outside the verified sources; per the spec each scalar
field of a freshly constructed result is zero (the all-zero sentinel is the
designed output for the hydrogen ion). -/
structure ThermoPropertiesSubstance where
  gibbs_energy : ℚ := 0
  enthalpy : ℚ := 0
  entropy : ℚ := 0
  heat_capacity_cp : ℚ := 0
  heat_capacity_cv : ℚ := 0
  helmholtz_energy : ℚ := 0
  internal_energy : ℚ := 0
  volume : ℚ := 0
  deriving DecidableEq, Repr, Inhabited

/-- `ThermoPropertiesReaction`: the reaction-level value object.  Modelled
from the spec for the same reason as `ThermoPropertiesSubstance`; fields
default to zero. -/
structure ThermoPropertiesReaction where
  reaction_gibbs_energy : ℚ := 0
  reaction_enthalpy : ℚ := 0
  reaction_entropy : ℚ := 0
  reaction_heat_capacity_cp : ℚ := 0
  reaction_heat_capacity_cv : ℚ := 0
  reaction_helmholtz_energy : ℚ := 0
  reaction_internal_energy : ℚ := 0
  reaction_volume : ℚ := 0
  ln_equilibrium_constant : ℚ := 0
  log_equilibrium_constant : ℚ := 0
  deriving DecidableEq, Repr, Inhabited

/-- Bulk solvent properties (`PropertiesSolvent`).  The engine never reads
individual fields; it only passes the value to black-box models, so a single
representative field suffices. -/
structure PropertiesSolvent where
  density : ℚ := 0
  deriving DecidableEq, Repr, Inhabited

/-- Electrostatic solvent properties (`ElectroPropertiesSolvent`); opaque to
the dispatch logic, one representative field. -/
structure ElectroPropertiesSolvent where
  epsilon : ℚ := 0
  deriving DecidableEq, Repr, Inhabited

/-- The error conditions surfaced by the verified sources.
`recordNotFound` is raised by `errorNonExistent` in `Database.cpp` (carrying
the record type, the requested name and the `__LINE__` of the raise site);
`reactionNotDefined` is raised by `errorReactionNotDefined` in
`reacDCthermoProperties` (its message body lives outside the verified
sources; modelled from the spec as carrying the offending substance symbol).
`outOfFuel` is an artefact of the fuel-based embedding of the (potentially
cyclic) recursion and has no counterpart in the C++ code. -/
inductive ThermoError where
  | recordNotFound (type : String) (name : String) (line : Nat)
  | reactionNotDefined (symbol : String) (line : Nat)
  | outOfFuel
  deriving DecidableEq, Repr

/-- The `error` message string built by `errorNonExistent` for a missing
record (`Database.cpp` lines 26-33): it names both the record type and the
missing symbol. -/
def errorNonExistentMessage (type : String) (name : String) : String :=
  "Cannot get an instance of the " ++ type ++ " `" ++ name ++ "` in the database."

/-- The `reason` message string built by `errorNonExistent`. -/
def errorNonExistentReason (type : String) : String :=
  "There is no such " ++ type ++ " in the database."

/-- The database: two association maps, from key string to record.
`std::map` insertion with `insert` does not overwrite an existing key; the
embedding mirrors that in `mapInsert`. -/
structure Database where
  substances_map : List (String × Substance) := []
  reactions_map : List (String × Reaction) := []
  deriving DecidableEq, Repr, Inhabited

/-- Key lookup in an association map (the `count`/`find`/`at` combination
used by `Database::Impl`). -/
def mapFind {α : Type} (m : List (String × α)) (k : String) : Option α :=
  match m with
  | [] => none
  | (key, v) :: rest => if key = k then some v else mapFind rest k

/-- `std::map::insert`: inserts only when the key is not already present. -/
def mapInsert {α : Type} (m : List (String × α)) (k : String) (v : α) :
    List (String × α) :=
  match mapFind m k with
  | some _ => m
  | none => (k, v) :: m

/-- `Database::Impl::addSubstance`: the record is inserted under the key
`substance.name()` (not its symbol). -/
def Database.addSubstance (db : Database) (substance : Substance) : Database :=
  { db with substances_map := mapInsert db.substances_map substance.name substance }

/-- `Database::Impl::addReaction`: the record is inserted under the key
`reaction.name()`. -/
def Database.addReaction (db : Database) (reaction : Reaction) : Database :=
  { db with reactions_map := mapInsert db.reactions_map reaction.name reaction }

/-- `Database::Impl::containsSubstance`. -/
def Database.containsSubstance (db : Database) (name : String) : Bool :=
  (mapFind db.substances_map name).isSome

/-- `Database::Impl::containsReaction`. -/
def Database.containsReaction (db : Database) (name : String) : Bool :=
  (mapFind db.reactions_map name).isSome

/-- `Database::Impl::getSubstance`: raises `errorNonExistent("substance",
name, __LINE__)` (line 189 of `Database.cpp`) when the key is absent. -/
def Database.getSubstance (db : Database) (name : String) :
    Except ThermoError Substance :=
  match mapFind db.substances_map name with
  | some s => .ok s
  | none => .error (.recordNotFound "substance" name 189)

/-- `Database::Impl::getReaction`: raises `errorNonExistent("reaction",
name, __LINE__)` (line 197 of `Database.cpp`) when the key is absent. -/
def Database.getReaction (db : Database) (name : String) :
    Except ThermoError Reaction :=
  match mapFind db.reactions_map name with
  | some r => .ok r
  | none => .error (.recordNotFound "reaction" name 197)

/-- Well-formedness of a database with respect to the store population
functions: every entry is filed under its record's name.  All stores built
with `Database.addSubstance` / `Database.addReaction` satisfy this. -/
def Database.wfKeys (db : Database) : Prop :=
  (∀ p ∈ db.substances_map, (p.2 : Substance).name = p.1) ∧
  (∀ p ∈ db.reactions_map, (p.2 : Reaction).name = p.1)

/-- The black-box physical model functions called by the dispatch logic.
Their formulas are outside the verified sources (spec §1 treats them as
black-box functions with documented signatures); the engine carries them as
fields, and every claim proved below holds for an arbitrary instantiation.
Each field corresponds to one model object constructor plus its
`thermoProperties` / `propertiesSolvent` / `electroPropertiesSolvent`
member, with the argument list taken from the call site in
`ThermoEngine.cpp`. -/
structure Models where
  empiricalCpIntegration : Substance → ℚ → ℚ → ThermoPropertiesSubstance :=
    fun _ _ _ => {}
  soluteHKFgems : Substance → ℚ → ℚ → PropertiesSolvent →
    ElectroPropertiesSolvent → ThermoPropertiesSubstance := fun _ _ _ _ _ => {}
  soluteHKFreaktoro : Substance → ℚ → ℚ → PropertiesSolvent →
    ElectroPropertiesSolvent → ThermoPropertiesSubstance := fun _ _ _ _ _ => {}
  hpLandau : Substance → ℚ → ℚ → ThermoPropertiesSubstance →
    ThermoPropertiesSubstance := fun _ _ _ tps => tps
  soluteAkinfievDiamondEOS : Substance → ℚ → ℚ → ThermoPropertiesSubstance →
    ThermoPropertiesSubstance → ThermoPropertiesSubstance → PropertiesSolvent →
    ThermoPropertiesSubstance → ThermoPropertiesSubstance → PropertiesSolvent →
    ThermoPropertiesSubstance := fun _ _ _ tps _ _ _ _ _ _ => tps
  minMurnaghanEOSHP98 : Substance → ℚ → ℚ → ThermoPropertiesSubstance →
    ThermoPropertiesSubstance := fun _ _ _ tps => tps
  minBerman88 : Substance → ℚ → ℚ → ThermoPropertiesSubstance →
    ThermoPropertiesSubstance := fun _ _ _ tps => tps
  minBMGottschalk : Substance → ℚ → ℚ → ThermoPropertiesSubstance →
    ThermoPropertiesSubstance := fun _ _ _ tps => tps
  gasCORK : Substance → ℚ → ℚ → ThermoPropertiesSubstance →
    ThermoPropertiesSubstance := fun _ _ _ tps => tps
  gasPRSV : Substance → ℚ → ℚ → ThermoPropertiesSubstance →
    ThermoPropertiesSubstance := fun _ _ _ tps => tps
  gasCGF : Substance → ℚ → ℚ → ThermoPropertiesSubstance →
    ThermoPropertiesSubstance := fun _ _ _ tps => tps
  gasSRK : Substance → ℚ → ℚ → ThermoPropertiesSubstance →
    ThermoPropertiesSubstance := fun _ _ _ tps => tps
  gasPR78 : Substance → ℚ → ℚ → ThermoPropertiesSubstance →
    ThermoPropertiesSubstance := fun _ _ _ tps => tps
  gasSTP : Substance → ℚ → ℚ → ThermoPropertiesSubstance →
    ThermoPropertiesSubstance := fun _ _ _ tps => tps
  conMolVol : Substance → ℚ → ℚ → ThermoPropertiesSubstance →
    ThermoPropertiesSubstance := fun _ _ _ tps => tps
  idealGasLawVol : Substance → ℚ → ℚ → ThermoPropertiesSubstance →
    ThermoPropertiesSubstance := fun _ _ _ tps => tps
  waterIdealGasWoolley : Substance → ℚ → ℚ → ThermoPropertiesSubstance :=
    fun _ _ _ => {}
  waterHGKtps : Substance → ℚ → ℚ → Nat → ThermoPropertiesSubstance :=
    fun _ _ _ _ => {}
  waterHGKreaktoroTps : Substance → ℚ → ℚ → Nat → ThermoPropertiesSubstance :=
    fun _ _ _ _ => {}
  waterWP95reaktoroTps : Substance → ℚ → ℚ → Nat → ThermoPropertiesSubstance :=
    fun _ _ _ _ => {}
  waterZhangDuan2005Tps : Substance → ℚ → ℚ → Nat → ThermoPropertiesSubstance :=
    fun _ _ _ _ => {}
  waterHGKps : Substance → ℚ → ℚ → Nat → PropertiesSolvent := fun _ _ _ _ => {}
  waterHGKreaktoroPs : Substance → ℚ → ℚ → Nat → PropertiesSolvent :=
    fun _ _ _ _ => {}
  waterWP95reaktoroPs : Substance → ℚ → ℚ → Nat → PropertiesSolvent :=
    fun _ _ _ _ => {}
  waterZhangDuan2005Ps : Substance → ℚ → ℚ → Nat → PropertiesSolvent :=
    fun _ _ _ _ => {}
  waterJNreaktoro : Substance → ℚ → ℚ → PropertiesSolvent →
    ElectroPropertiesSolvent := fun _ _ _ _ => {}
  waterJNgems : Substance → ℚ → ℚ → ElectroPropertiesSolvent := fun _ _ _ => {}
  waterElectroSverjensky2014 : Substance → ℚ → ℚ → ElectroPropertiesSolvent :=
    fun _ _ _ => {}
  waterElectroFernandez1997 : Substance → ℚ → ℚ → ElectroPropertiesSolvent :=
    fun _ _ _ => {}
  reactionLogK_fT : Reaction → ℚ → ℚ → MethodCorrT → ThermoPropertiesReaction :=
    fun _ _ _ _ => {}
  reactionFrantzMarshall : Reaction → ℚ → ℚ → PropertiesSolvent →
    ThermoPropertiesReaction := fun _ _ _ _ => {}
  reactionRyzhenkoBryzgalin : Reaction → ℚ → ℚ → PropertiesSolvent →
    ThermoPropertiesReaction := fun _ _ _ _ => {}
  reactionVol_fT : Reaction → ℚ → ℚ → ThermoPropertiesReaction :=
    fun _ _ _ => {}
  elementalEntropy : String → ℚ := fun _ => 0

/-- The engine state (`ThermoEngine::Impl`): the database copy, the
configurable solvent symbol (default `"H2O@"`), and the black-box models. -/
structure Engine where
  database : Database := {}
  solventSymbol : String := "H2O@"
  models : Models := {}

/-- The fixed conventions table of `ThermoEngine::Impl` (lines 66-68):
`"aparent-properties" -> "Benson-Helgeson"`, `"water-properties" -> ""`.
It is a `const` member initialized identically for every engine instance. -/
def conventions : List (String × String) :=
  [("aparent-properties", "Benson-Helgeson"), ("water-properties", "")]

/-- ASCII lower-casing of one character (the `std::tolower` used by
`boost::iequals`; every string compared by the engine is ASCII). -/
def asciiLower (c : Char) : Char :=
  if 65 ≤ c.toNat ∧ c.toNat ≤ 90 then Char.ofNat (c.toNat + 32) else c

/-- `boost::iequals`: case-insensitive string equality. -/
def iequals (a b : String) : Bool :=
  a.data.map asciiLower == b.data.map asciiLower

/-- `cal_to_J`.  Modelled from the spec: the constant lives in
`GlobalVariables.h`, outside the verified sources; the thermochemical
calorie is 4.184 J.  (No claim below depends on its value.) -/
def cal_to_J : ℚ := 4.184

/-- `ThermoEngine::Impl::toSteamTables`: subtracts the Helgeson-Kirkham
(1974) triple-point reference offsets. -/
def toSteamTables (tps : ThermoPropertiesSubstance) : ThermoPropertiesSubstance :=
  let Str : ℚ := 15.1320 * cal_to_J
  let Gtr : ℚ := -56290.0 * cal_to_J
  let Htr : ℚ := -68767.0 * cal_to_J
  let Utr : ℚ := -67887.0 * cal_to_J
  let Atr : ℚ := -55415.0 * cal_to_J
  { tps with
    gibbs_energy := tps.gibbs_energy - Gtr
    enthalpy := tps.enthalpy - Htr
    entropy := tps.entropy - Str
    helmholtz_energy := tps.helmholtz_energy - Atr
    internal_energy := tps.internal_energy - Utr }

/-- `ThermoEngine::Impl::toBermanBrown`: subtracts `Tr × elemental entropy`
from Gibbs energy and enthalpy (the elemental entropy of the parsed formula
is a black-box collaborator, carried in `Models`). -/
def toBermanBrown (models : Models) (tps : ThermoPropertiesSubstance)
    (subst : Substance) : ThermoPropertiesSubstance :=
  let Tr := subst.referenceT
  let entropyElements := models.elementalEntropy subst.formula
  { tps with
    gibbs_energy := tps.gibbs_energy - Tr * entropyElements
    enthalpy := tps.enthalpy - Tr * entropyElements }

/-- The transient per-call preference record (`ThermoPreferences`). -/
structure ThermoPreferences where
  workSubstance : Substance
  method_genEOS : MethodGenEoS
  method_T : MethodCorrT
  method_P : MethodCorrP
  solventState : Nat := 0
  isHydrogen : Bool := false
  isH2Ovapor : Bool := false
  isH2OSolvent : Bool := false
  isReacDC : Bool := false
  deriving Repr

/-- `ThermoEngine::Impl::getThermoPreferences`: fetch the record and derive
the classification flags exactly as lines 132-172 of `ThermoEngine.cpp`. -/
def getThermoPreferences (db : Database) (substance : String) :
    Except ThermoError ThermoPreferences := do
  let workSubstance ← db.getSubstance substance
  pure
    { workSubstance := workSubstance
      method_genEOS := workSubstance.methodGenEOS
      method_T := workSubstance.method_T
      method_P := workSubstance.method_P
      isHydrogen := workSubstance.name = "H+"
      isH2Ovapor := workSubstance.methodGenEOS = .CTPM_HKF ∧
        workSubstance.method_P = .CPM_GAS
      isH2OSolvent := workSubstance.substanceClass = .AQSOLVENT
      solventState := if workSubstance.aggregateState = .GAS then 1 else 0
      isReacDC := workSubstance.thermoCalculationType = .REACDC }

/-- `ThermoEngine::Impl::propertiesSolvent`: dispatch on the
temperature-correction code over the four water/steam EoS families; any
other code leaves the default-constructed result; non-solvent symbols get
the default result. -/
def propertiesSolvent (eng : Engine) (T P : ℚ) (solvent : String) :
    Except ThermoError PropertiesSolvent := do
  let pref ← getThermoPreferences eng.database solvent
  let ps : PropertiesSolvent := {}
  if pref.isH2OSolvent then
    match pref.method_T with
    | .CTM_WAT => pure (eng.models.waterHGKps pref.workSubstance T P pref.solventState)
    | .CTM_WAR => pure (eng.models.waterHGKreaktoroPs pref.workSubstance T P pref.solventState)
    | .CTM_WWP => pure (eng.models.waterWP95reaktoroPs pref.workSubstance T P pref.solventState)
    | .CTM_WZD => pure (eng.models.waterZhangDuan2005Ps pref.workSubstance T P pref.solventState)
    | _ => pure ps
  else
    pure ps

/-- `ThermoEngine::Impl::electroPropertiesSolvent`: computes the bulk
solvent properties first (line 361), then dispatches on the generic-EoS
code over the four dielectric models; unmatched codes and non-solvent
symbols leave the default-constructed result. -/
def electroPropertiesSolvent (eng : Engine) (T P : ℚ) (solvent : String) :
    Except ThermoError ElectroPropertiesSolvent := do
  let pref ← getThermoPreferences eng.database solvent
  let ps ← propertiesSolvent eng T P solvent
  let eps : ElectroPropertiesSolvent := {}
  if pref.isH2OSolvent then
    match pref.method_genEOS with
    | .CTPM_WJNR => pure (eng.models.waterJNreaktoro pref.workSubstance T P ps)
    | .CTPM_WJNG => pure (eng.models.waterJNgems pref.workSubstance T P)
    | .CTPM_WSV14 => pure (eng.models.waterElectroSverjensky2014 pref.workSubstance T P)
    | .CTPM_WF97 => pure (eng.models.waterElectroFernandez1997 pref.workSubstance T P)
    | _ => pure eps
  else
    pure eps

/-- `ThermoEngine::Impl::thermoPropertiesReaction` (lines 433-513): fetch
the reaction, dispatch on its temperature-correction code (six log-K codes
share one handler; the density model and the modified Ryzhenko-Bryzgalin
model consume the solvent properties; `CTM_IKZ` and unmatched codes do
nothing), then dispatch on its pressure-correction code (`CPM_VKE`/`CPM_VBE`
assign the volume-based correction, `CPM_NUL`/`CPM_CON` and unmatched codes
do nothing).  The `CTM_MRB` branch `return`s directly from inside the first
switch (line 459), so it never reaches the pressure-correction switch. -/
def thermoPropertiesReaction (eng : Engine) (T P : ℚ) (reaction : String) :
    Except ThermoError ThermoPropertiesReaction := do
  let reac ← eng.database.getReaction reaction
  let methodT := reac.method_T
  let methodP := reac.method_P
  match methodT with
  | .CTM_MRB => do
      let ps ← propertiesSolvent eng T P eng.solventSymbol
      pure (eng.models.reactionRyzhenkoBryzgalin reac T P ps)
  | _ => do
      let tpr : ThermoPropertiesReaction ←
        match methodT with
        | .CTM_LGX | .CTM_LGK | .CTM_EK0 | .CTM_EK1 | .CTM_EK3 | .CTM_EK2 =>
            pure (eng.models.reactionLogK_fT reac T P methodT)
        | .CTM_DKR => do
            let ps ← propertiesSolvent eng T P eng.solventSymbol
            pure (eng.models.reactionFrantzMarshall reac T P ps)
        | _ => pure {}
      let tpr : ThermoPropertiesReaction :=
        match methodP with
        | .CPM_VKE | .CPM_VBE => eng.models.reactionVol_fT reac T P
        | _ => tpr
      pure tpr

/-- The convention-normalization block of
`ThermoEngine::Impl::thermoPropertiesSubstance` (lines 341-350): for the
solvent, apply the steam-tables offsets when the configured water convention
is `"steam-tables"`; otherwise apply the Berman-Brown offsets when the
configured apparent-properties convention is `"Berman-Brown"`. -/
def applyConventions (models : Models) (pref : ThermoPreferences)
    (tps : ThermoPropertiesSubstance) : ThermoPropertiesSubstance :=
  if pref.isH2OSolvent then
    if iequals ((mapFind conventions "water-properties").getD "") "steam-tables"
    then toSteamTables tps
    else tps
  else
    if iequals ((mapFind conventions "aparent-properties").getD "") "Berman-Brown"
    then toBermanBrown models tps pref.workSubstance
    else tps

/-- Seeding of the substance result from the reaction result
(`reacDCthermoProperties`, lines 529-536). -/
def tpsOfTpr (tpr : ThermoPropertiesReaction) : ThermoPropertiesSubstance :=
  { enthalpy := tpr.reaction_enthalpy
    entropy := tpr.reaction_entropy
    gibbs_energy := tpr.reaction_gibbs_energy
    heat_capacity_cp := tpr.reaction_heat_capacity_cp
    heat_capacity_cv := tpr.reaction_heat_capacity_cv
    helmholtz_energy := tpr.reaction_helmholtz_energy
    internal_energy := tpr.reaction_internal_energy
    volume := tpr.reaction_volume }

/-- One loop iteration of `reacDCthermoProperties` (lines 545-552):
subtract `coefficient × reactant properties` from every field. -/
def tpsSubScaled (tps reacTps : ThermoPropertiesSubstance) (coeff : ℚ) :
    ThermoPropertiesSubstance :=
  { enthalpy := tps.enthalpy - reacTps.enthalpy * coeff
    entropy := tps.entropy - reacTps.entropy * coeff
    gibbs_energy := tps.gibbs_energy - reacTps.gibbs_energy * coeff
    heat_capacity_cp := tps.heat_capacity_cp - reacTps.heat_capacity_cp * coeff
    heat_capacity_cv := tps.heat_capacity_cv - reacTps.heat_capacity_cv * coeff
    helmholtz_energy := tps.helmholtz_energy - reacTps.helmholtz_energy * coeff
    internal_energy := tps.internal_energy - reacTps.internal_energy * coeff
    volume := tps.volume - reacTps.volume * coeff }

/-- The final division of `reacDCthermoProperties` (lines 556-563): every
field divided by the same scalar. -/
def tpsDivAll (tps : ThermoPropertiesSubstance) (c : ℚ) :
    ThermoPropertiesSubstance :=
  { enthalpy := tps.enthalpy / c
    entropy := tps.entropy / c
    gibbs_energy := tps.gibbs_energy / c
    heat_capacity_cp := tps.heat_capacity_cp / c
    heat_capacity_cv := tps.heat_capacity_cv / c
    helmholtz_energy := tps.helmholtz_energy / c
    internal_energy := tps.internal_energy / c
    volume := tps.volume / c }

/-- The divisor of `reacDCthermoProperties`: `reactants[subst.symbol()]`.
`std::map::operator[]` default-inserts `0.0` when the key is absent, so the
lookup yields the stored coefficient if present and `0` otherwise. -/
def reacDCdivisor (reaction : Reaction) (subst : Substance) : ℚ :=
  (mapFind reaction.reactants subst.symbol).getD 0

/-- The body of the reactant loop of `reacDCthermoProperties`
(lines 540-554): every reactant other than the substance itself contributes
`-coefficient × its substance properties`, evaluated through the memoized
substance entry point (abstracted as `tpsFn`). -/
def reacDCstep (tpsFn : ℚ → ℚ → String → Except ThermoError ThermoPropertiesSubstance)
    (subst : Substance) (T P : ℚ) (tps : ThermoPropertiesSubstance)
    (reactant : String × ℚ) : Except ThermoError ThermoPropertiesSubstance :=
  if reactant.1 ≠ subst.symbol then do
    let reacTps ← tpsFn T P reactant.1
    pure (tpsSubScaled tps reacTps reactant.2)
  else
    pure tps

/-- `ThermoEngine::Impl::reacDCthermoProperties` (lines 515-570).  The
substance-property evaluations of the other reactants go through the
memoized member `thermo_properties_substance_fn`, which is abstracted here
as the function parameter `tpsFn` (the engine below ties the knot).  The
reaction-property evaluation goes through `thermo_properties_reaction_fn`,
whose underlying computation `thermoPropertiesReaction` is not recursive
into substances, so it is called directly. -/
def reacDCthermoProperties (eng : Engine)
    (tpsFn : ℚ → ℚ → String → Except ThermoError ThermoPropertiesSubstance)
    (T P : ℚ) (subst : Substance) :
    Except ThermoError ThermoPropertiesSubstance :=
  if subst.reactionSymbol ≠ "" then do
    let reaction ← eng.database.getReaction subst.reactionSymbol
    let tpr ← thermoPropertiesReaction eng T P subst.reactionSymbol
    let tps := tpsOfTpr tpr
    let tps ← reaction.reactants.foldlM (reacDCstep tpsFn subst T P) tps
    pure (tpsDivAll tps (reacDCdivisor reaction subst))
  else
    .error (.reactionNotDefined subst.symbol 566)

/-- The generic-EoS switch of `thermoPropertiesSubstance` (lines 189-209):
three handled codes, every other code leaves `tps` unchanged (the `default`
raising `errorMethodNotFound` is commented out in the source). -/
def substanceGenEOSdispatch (eng : Engine) (pref : ThermoPreferences)
    (T P : ℚ) (tps : ThermoPropertiesSubstance) :
    Except ThermoError ThermoPropertiesSubstance :=
  match pref.method_genEOS with
  | .CTPM_CPT =>
      pure (eng.models.empiricalCpIntegration pref.workSubstance T P)
  | .CTPM_HKF => do
      let ps ← propertiesSolvent eng T P eng.solventSymbol
      let eps ← electroPropertiesSolvent eng T P eng.solventSymbol
      pure (eng.models.soluteHKFgems pref.workSubstance T P ps eps)
  | .CTPM_HKFR => do
      let ps ← propertiesSolvent eng T P eng.solventSymbol
      let eps ← electroPropertiesSolvent eng T P eng.solventSymbol
      pure (eng.models.soluteHKFreaktoro pref.workSubstance T P ps eps)
  | _ => pure tps

/-- The temperature-correction switch of `thermoPropertiesSubstance`
(lines 212-222): only `CTM_CHP` is handled; every other code leaves `tps`
unchanged. -/
def substanceTcorrDispatch (models : Models) (pref : ThermoPreferences)
    (T P : ℚ) (tps : ThermoPropertiesSubstance) : ThermoPropertiesSubstance :=
  match pref.method_T with
  | .CTM_CHP => models.hpLandau pref.workSubstance T P tps
  | _ => tps

/-- The pressure-correction switch of `thermoPropertiesSubstance`
(lines 225-297): twelve handled codes; `CPM_AKI` additionally queries the
solvent record and the solvent's substance/solvent properties at `(T, P)`
and at the solvent's reference `(Tr, Pr)` through the memoized entry points
(abstracted as `tpsFn`); every other code leaves `tps` unchanged. -/
def substancePcorrDispatch (eng : Engine)
    (tpsFn : ℚ → ℚ → String → Except ThermoError ThermoPropertiesSubstance)
    (pref : ThermoPreferences) (T P : ℚ) (tps : ThermoPropertiesSubstance) :
    Except ThermoError ThermoPropertiesSubstance :=
  match pref.method_P with
  | .CPM_AKI => do
      let solvRecord ← eng.database.getSubstance eng.solventSymbol
      let Pr := solvRecord.referenceP
      let Tr := solvRecord.referenceT
      let tpsSolvTP ← tpsFn T P eng.solventSymbol
      let psTP ← propertiesSolvent eng T P eng.solventSymbol
      let tpsSolvTrPr ← tpsFn Tr Pr eng.solventSymbol
      let psTrPr ← propertiesSolvent eng Tr Pr eng.solventSymbol
      pure (eng.models.soluteAkinfievDiamondEOS pref.workSubstance T P tps
        tpsSolvTP (eng.models.waterIdealGasWoolley solvRecord T P) psTP
        tpsSolvTrPr (eng.models.waterIdealGasWoolley solvRecord Tr Pr) psTrPr)
  | .CPM_CEH => pure (eng.models.minMurnaghanEOSHP98 pref.workSubstance T P tps)
  | .CPM_VBE => pure (eng.models.minBerman88 pref.workSubstance T P tps)
  | .CPM_VBM => pure (eng.models.minBMGottschalk pref.workSubstance T P tps)
  | .CPM_CORK => pure (eng.models.gasCORK pref.workSubstance T P tps)
  | .CPM_PRSV => pure (eng.models.gasPRSV pref.workSubstance T P tps)
  | .CPM_EMP => pure (eng.models.gasCGF pref.workSubstance T P tps)
  | .CPM_SRK => pure (eng.models.gasSRK pref.workSubstance T P tps)
  | .CPM_PR78 => pure (eng.models.gasPR78 pref.workSubstance T P tps)
  | .CPM_STP => pure (eng.models.gasSTP pref.workSubstance T P tps)
  | .CPM_CON => pure (eng.models.conMolVol pref.workSubstance T P tps)
  | .CPM_OFF => pure (eng.models.idealGasLawVol pref.workSubstance T P tps)
  | _ => pure tps

/-- The water/steam switch of `thermoPropertiesSubstance` for the solvent
or water vapor (lines 300-339): four water EoS families selected by the
temperature-correction code; any other code falls back to the inner
generic-EoS switch, whose only handled case is Cp-integration. -/
def substanceWaterDispatch (models : Models) (pref : ThermoPreferences)
    (T P : ℚ) (tps : ThermoPropertiesSubstance) : ThermoPropertiesSubstance :=
  match pref.method_T with
  | .CTM_WAT => models.waterHGKtps pref.workSubstance T P pref.solventState
  | .CTM_WAR => models.waterHGKreaktoroTps pref.workSubstance T P pref.solventState
  | .CTM_WWP => models.waterWP95reaktoroTps pref.workSubstance T P pref.solventState
  | .CTM_WZD => models.waterZhangDuan2005Tps pref.workSubstance T P pref.solventState
  | _ =>
      match pref.method_genEOS with
      | .CTPM_CPT => models.empiricalCpIntegration pref.workSubstance T P
      | _ => tps

/-- `ThermoEngine::Impl::thermoPropertiesSubstance` (lines 174-356), with an
explicit fuel counter bounding the recursion depth of the mutually
recursive substance/reaction-derived evaluation.  All nested evaluations
that the C++ code routes through the memoized `std::function` members are
direct recursive calls here (memoization transparency is proved separately).
Fuel `0` yields the embedding-artefact error `outOfFuel`. -/
def thermoPropertiesSubstance (eng : Engine) :
    Nat → ℚ → ℚ → String → Except ThermoError ThermoPropertiesSubstance
  | 0, _, _, _ => .error .outOfFuel
  | n + 1, T, P, substance => do
    let pref ← getThermoPreferences eng.database substance
    let tps : ThermoPropertiesSubstance := {}
    if pref.isHydrogen then
      pure tps
    else if !pref.isReacDC then do
      let tps ←
        if !pref.isH2OSolvent && !pref.isH2Ovapor then do
          let tps ← substanceGenEOSdispatch eng pref T P tps
          let tps := substanceTcorrDispatch eng.models pref T P tps
          substancePcorrDispatch eng
            (fun T2 P2 s => thermoPropertiesSubstance eng n T2 P2 s)
            pref T P tps
        else
          pure tps
      let tps :=
        if pref.isH2OSolvent || pref.isH2Ovapor then
          substanceWaterDispatch eng.models pref T P tps
        else
          tps
      pure (applyConventions eng.models pref tps)
    else
      reacDCthermoProperties eng
        (fun T2 P2 s => thermoPropertiesSubstance eng n T2 P2 s)
        T P pref.workSubstance

/-- The argument tuple of the four memoized property functions:
`(T, P_target, P_accum, symbol)` (the `std::function` signatures at lines
47-57 of `ThermoEngine.cpp`).  Modelled from the spec: the `memoize`
combinator itself lives in `OptimizationUtils.h`, outside the verified
sources; per §4.1 its cache is keyed on the argument tuple with exact
equality on the numeric components and string equality on the symbol. -/
structure MemoKey where
  T : ℚ
  Ptarget : ℚ
  Paccum : ℚ
  symbol : String
  deriving DecidableEq, Repr

/-- Cache lookup by exact key equality. -/
def memoFind {β : Type} (m : List (MemoKey × β)) (k : MemoKey) : Option β :=
  match m with
  | [] => none
  | (key, v) :: rest => if key = k then some v else memoFind rest k

/-- Modelled from the spec (§4.1 contract of `memoize`): one call through
the memoized wrapper.  Returns the produced value, the updated cache, and
whether the underlying function was invoked; a cache hit returns the cached
value without invoking `f`, a miss invokes `f` once and stores the result. -/
def memoCall {β : Type} (f : MemoKey → β) (m : List (MemoKey × β))
    (k : MemoKey) : β × List (MemoKey × β) × Bool :=
  match memoFind m k with
  | some v => (v, m, false)
  | none => (f k, (k, f k) :: m, true)

/-- A sequence of calls through one memoized wrapper, recording for each
call its key, the returned value, and whether the underlying function was
invoked. -/
def memoSteps {β : Type} (f : MemoKey → β) (m : List (MemoKey × β)) :
    List MemoKey → List (MemoKey × β × Bool)
  | [] => []
  | k :: ks =>
    (k, (memoCall f m k).1, (memoCall f m k).2.2) ::
      memoSteps f (memoCall f m k).2.1 ks

/-- The values returned by a sequence of memoized calls. -/
def memoResults {β : Type} (f : MemoKey → β) (m : List (MemoKey × β))
    (ks : List MemoKey) : List β :=
  (memoSteps f m ks).map (fun s => s.2.1)

/-- How many times the underlying function was invoked for the key `k`
during a sequence of memoized calls. -/
def countInvocations {β : Type} (f : MemoKey → β) (m : List (MemoKey × β))
    (ks : List MemoKey) (k : MemoKey) : Nat :=
  (memoSteps f m ks).countP (fun s => s.1 == k && s.2.2)

/-- The water-state record written by the CSV export
(`OutputWaterSteamConventionProp.cpp`): the eleven scalar fields it
streams out. -/
structure WaterThermoState where
  temperature : ℚ := 0
  pressure : ℚ := 0
  cp : ℚ := 0
  cv : ℚ := 0
  density : ℚ := 0
  enthalpy : ℚ := 0
  entropy : ℚ := 0
  gibbs : ℚ := 0
  helmholtz : ℚ := 0
  internal_energy : ℚ := 0
  volume : ℚ := 0
  deriving DecidableEq, Repr, Inhabited

/-- The header line written by `OutputSteamConventionH2OProp` (line 19). -/
def csvHeader : String := "T,P,Cp,Cv,RHO,H,S,G,A,U,V\n"

/-- The data row written by `OutputSteamConventionH2OProp` (lines 22-24):
eleven comma-separated values terminated by `endl`.  The textual rendering
of a `double` by `operator<<` is abstracted as the parameter `render`. -/
def csvRow (render : ℚ → String) (wt : WaterThermoState) : String :=
  render wt.temperature ++ "," ++ render wt.pressure ++ "," ++
  render wt.cp ++ "," ++ render wt.cv ++ "," ++ render wt.density ++ "," ++
  render wt.enthalpy ++ "," ++ render wt.entropy ++ "," ++
  render wt.gibbs ++ "," ++ render wt.helmholtz ++ "," ++
  render wt.internal_energy ++ "," ++ render wt.volume ++ "\n"

/-- `OutputSteamConventionH2OProp`: the file is modelled by its current
contents.  The file is opened in append mode; `tellp()` immediately after
an append-mode open reports the current file size on the target platform
(libstdc++/Linux), so the header is written exactly when the file is empty
or did not exist, and every call then appends one data row. -/
def outputSteamConventionH2OProp (render : ℚ → String) (file : String)
    (wt : WaterThermoState) : String :=
  let res := file.length
  let file := if res = 0 then file ++ csvHeader else file
  file ++ csvRow render wt

/-- A sequence of calls to the CSV export on the same file. -/
def outputSteamConventionRuns (render : ℚ → String) (file : String) :
    List WaterThermoState → String
  | [] => file
  | wt :: rest =>
    outputSteamConventionRuns render (outputSteamConventionH2OProp render file wt) rest

/-- Concatenation of the data rows of a list of records (specification
side, for stating the CSV round-trip). -/
def csvRowsConcat (render : ℚ → String) : List WaterThermoState → String
  | [] => ""
  | wt :: rest => csvRow render wt ++ csvRowsConcat render rest

/-- Fieldwise sum of two substance results (used to state the
reaction-derived closure property). -/
def tpsAdd (x y : ThermoPropertiesSubstance) : ThermoPropertiesSubstance :=
  { enthalpy := x.enthalpy + y.enthalpy
    entropy := x.entropy + y.entropy
    gibbs_energy := x.gibbs_energy + y.gibbs_energy
    heat_capacity_cp := x.heat_capacity_cp + y.heat_capacity_cp
    heat_capacity_cv := x.heat_capacity_cv + y.heat_capacity_cv
    helmholtz_energy := x.helmholtz_energy + y.helmholtz_energy
    internal_energy := x.internal_energy + y.internal_energy
    volume := x.volume + y.volume }

/-- Specification-side description of the temperature-correction dispatch
of `thermoPropertiesReaction` alone (spec §4.5), with no pressure
dispatch: used to state which part of the computation the
Ryzhenko-Bryzgalin early `return` actually performs. -/
def reactionTbranchSpec (eng : Engine) (T P : ℚ) (reac : Reaction) :
    Except ThermoError ThermoPropertiesReaction :=
  match reac.method_T with
  | .CTM_LGX | .CTM_LGK | .CTM_EK0 | .CTM_EK1 | .CTM_EK3 | .CTM_EK2 =>
      .ok (eng.models.reactionLogK_fT reac T P reac.method_T)
  | .CTM_DKR =>
      (propertiesSolvent eng T P eng.solventSymbol).map
        (eng.models.reactionFrantzMarshall reac T P)
  | .CTM_MRB =>
      (propertiesSolvent eng T P eng.solventSymbol).map
        (eng.models.reactionRyzhenkoBryzgalin reac T P)
  | _ => .ok {}

/-- A sample instantiation of the black-box models with distinguishable
outputs, used by the concrete witnesses below. -/
def sampleModels : Models :=
  { reactionLogK_fT := fun _ _ _ _ =>
      { reaction_gibbs_energy := 10, reaction_enthalpy := 20 }
    reactionRyzhenkoBryzgalin := fun _ _ _ _ => { reaction_gibbs_energy := 5 }
    reactionVol_fT := fun _ _ _ => { reaction_gibbs_energy := 7 } }

/-- Sample solvent record (aqueous-solvent class, liquid). -/
def substH2O : Substance :=
  { symbol := "H2O@", name := "H2O@", substanceClass := .AQSOLVENT,
    aggregateState := .LIQUID }

/-- Sample reaction-derived substance X defined via reaction `"R"`. -/
def substX : Substance :=
  { symbol := "X", name := "X", thermoCalculationType := .REACDC,
    reactionSymbol := "R" }

/-- Sample direct substance A (no handled method codes). -/
def substA : Substance := { symbol := "A", name := "A" }

/-- Sample direct substance B (no handled method codes). -/
def substB : Substance := { symbol := "B", name := "B" }

/-- Sample reaction R with reactants `{X: 1, A: -1, B: -1}` and a log-K
temperature handler. -/
def reacR : Reaction :=
  { symbol := "R", name := "R", method_T := .CTM_LGK,
    reactants := [("X", 1), ("A", -1), ("B", -1)] }

/-- Store holding X, A, B and R. -/
def dbC1 : Database :=
  ((((Database.addSubstance {} substX).addSubstance substA).addSubstance
    substB).addReaction reacR)

/-- Engine over `dbC1` with the sample models. -/
def engC1 : Engine := { database := dbC1, models := sampleModels }

/-- Sample reaction with the modified Ryzhenko-Bryzgalin temperature
code and a volume-vs-T pressure code. -/
def reacR4 : Reaction :=
  { symbol := "R4", name := "R4", method_T := .CTM_MRB, method_P := .CPM_VKE }

/-- Store holding the solvent and `reacR4`. -/
def dbC4 : Database := (Database.addSubstance {} substH2O).addReaction reacR4

/-- Engine over `dbC4` with the sample models. -/
def engC4 : Engine := { database := dbC4, models := sampleModels }

/-- Sample substance whose three method codes match no handler. -/
def substU : Substance := { symbol := "U", name := "U" }

/-- Engine whose store holds only `substU`. -/
def engC2 : Engine :=
  { database := Database.addSubstance {} substU, models := sampleModels }

/-- Sample substance whose name differs from its symbol. -/
def substC7 : Substance := { symbol := "symB", name := "nameA" }

/-- Sample reaction whose name differs from its symbol. -/
def reacC7 : Reaction := { symbol := "rsymB", name := "rnameA" }

/-- Store populated with the one substance `substC7`. -/
def dbC7 : Database := Database.addSubstance {} substC7

/-- Sample aqueous hydrogen ion record. -/
def substHplus : Substance :=
  { symbol := "H+", name := "H+", methodGenEOS := .CTPM_HKF }

/-- Engine whose store holds only the hydrogen ion. -/
def engC9 : Engine :=
  { database := Database.addSubstance {} substHplus, models := sampleModels }

/-- Reduction of a successful bind in the `Except ThermoError` monad. -/
@[simp] theorem exceptBindOk {α β : Type} (a : α)
    (f : α → Except ThermoError β) :
    (Except.ok a >>= f : Except ThermoError β) = f a := rfl

/-- Reduction of a failed bind in the `Except ThermoError` monad. -/
@[simp] theorem exceptBindErr {α β : Type} (e : ThermoError)
    (f : α → Except ThermoError β) :
    ((Except.error e : Except ThermoError α) >>= f) = Except.error e := rfl

/-- `pure` in the `Except ThermoError` monad is `Except.ok`. -/
@[simp] theorem exceptPure {α : Type} (a : α) :
    (pure a : Except ThermoError α) = Except.ok a := rfl

/-- Reduction of `Except.bind` on a successful value. -/
@[simp] theorem exceptBindOkExplicit {α β : Type} (a : α)
    (f : α → Except ThermoError β) :
    (Except.ok a : Except ThermoError α).bind f = f a := rfl

/-- Reduction of `Except.bind` on a failed value. -/
@[simp] theorem exceptBindErrExplicit {α β : Type} (e : ThermoError)
    (f : α → Except ThermoError β) :
    (Except.error e : Except ThermoError α).bind f = Except.error e := rfl

/-- Mapping over a successful `Except` value. -/
@[simp] theorem exceptMapOk {α β : Type} (f : α → β) (a : α) :
    (Except.ok a : Except ThermoError α).map f = Except.ok (f a) := rfl

/-- Mapping over a failed `Except` value. -/
@[simp] theorem exceptMapErr {α β : Type} (f : α → β) (e : ThermoError) :
    (Except.error e : Except ThermoError α).map f = Except.error e := rfl

/-- A failed `isSome` test means the lookup found nothing. -/
theorem mapFind_eq_none_of_isSome_false {α : Type} (m : List (String × α))
    (k : String) (h : (mapFind m k).isSome = false) : mapFind m k = none := by
  cases hm : mapFind m k with
  | none => rfl
  | some v => rw [hm] at h; simp at h

/-- A successful lookup result is an entry of the map. -/
theorem mapFind_mem {α : Type} (m : List (String × α)) (k : String) (v : α)
    (h : mapFind m k = some v) : (k, v) ∈ m := by
  induction m with
  | nil => simp [mapFind] at h
  | cons p rest ih =>
    cases p with
    | mk a b =>
      by_cases hk : a = k
      · unfold mapFind at h
        rw [if_pos hk] at h
        have hv : b = v := Option.some_inj.mp h
        rw [← hk, ← hv]
        exact List.mem_cons_self _ _
      · unfold mapFind at h
        rw [if_neg hk] at h
        exact List.mem_cons_of_mem _ (ih h)

/-- C5: the conventions table is fixed at construction to
`{"aparent-properties" -> "Benson-Helgeson", "water-properties" -> ""}`, so
the steam-tables guard and the Berman-Brown guard of
`thermoPropertiesSubstance` both evaluate false and the convention
normalization block is the identity: no convention offset is ever
subtracted from a dispatched model result. -/
theorem claim_C5_conventions_never_applied :
    mapFind conventions "aparent-properties" = some "Benson-Helgeson" ∧
    mapFind conventions "water-properties" = some "" ∧
    iequals ((mapFind conventions "water-properties").getD "") "steam-tables" = false ∧
    iequals ((mapFind conventions "aparent-properties").getD "") "Berman-Brown" = false ∧
    ∀ (models : Models) (pref : ThermoPreferences)
      (tps : ThermoPropertiesSubstance),
      applyConventions models pref tps = tps := by
  refine ⟨by simp [conventions, mapFind], by simp [conventions, mapFind], ?_, ?_, ?_⟩
  · simp [conventions, mapFind, iequals]
  · simp [conventions, mapFind, iequals]
  · intro models pref tps
    unfold applyConventions
    simp [conventions, mapFind, iequals]

/-- C6: a symbol absent from the store makes `getSubstance` /
`getReaction` fail with the `errorNonExistent` exception naming the record
type and the missing symbol; the property evaluators on such a symbol
propagate exactly that error and return no result. -/
theorem claim_C6_record_not_found (eng : Engine) (n : Nat) (T P : ℚ)
    (sym rsym : String)
    (hs : eng.database.containsSubstance sym = false)
    (hr : eng.database.containsReaction rsym = false) :
    eng.database.getSubstance sym =
      .error (.recordNotFound "substance" sym 189) ∧
    eng.database.getReaction rsym =
      .error (.recordNotFound "reaction" rsym 197) ∧
    thermoPropertiesSubstance eng (n + 1) T P sym =
      .error (.recordNotFound "substance" sym 189) ∧
    thermoPropertiesReaction eng T P rsym =
      .error (.recordNotFound "reaction" rsym 197) ∧
    errorNonExistentMessage "substance" sym =
      "Cannot get an instance of the substance `" ++ sym ++ "` in the database." ∧
    errorNonExistentReason "substance" =
      "There is no such substance in the database." := by
  have hns : mapFind eng.database.substances_map sym = none :=
    mapFind_eq_none_of_isSome_false _ _ hs
  have hnr : mapFind eng.database.reactions_map rsym = none :=
    mapFind_eq_none_of_isSome_false _ _ hr
  refine ⟨?_, ?_, ?_, ?_, rfl, rfl⟩
  · simp [Database.getSubstance, hns]
  · simp [Database.getReaction, hnr]
  · simp [thermoPropertiesSubstance, getThermoPreferences,
      Database.getSubstance, hns]
  · simp [thermoPropertiesReaction, Database.getReaction, hnr]

/-- C6 witness: the empty store at a concrete symbol. -/
theorem claim_C6_witness :
    (Database.getSubstance ({} : Database) "Qtz" =
      .error (.recordNotFound "substance" "Qtz" 189)) ∧
    (thermoPropertiesSubstance { models := sampleModels } 1 298 1 "Qtz" =
      .error (.recordNotFound "substance" "Qtz" 189)) := by
  have h := claim_C6_record_not_found { models := sampleModels } 0 298 1
    "Qtz" "Rx" (by simp [Database.containsSubstance, mapFind])
    (by simp [Database.containsReaction, mapFind])
  exact ⟨h.1, h.2.2.1⟩

/-- C7 counterexample: the store is keyed by record name, not by symbol.
For the substance with name `"nameA"` and symbol `"symB"`, after
`addSubstance` the lookup under the symbol fails with `RecordNotFound`,
while the lookup under the name succeeds. -/
theorem claim_C7_counterexample :
    Database.containsSubstance dbC7 "symB" = false ∧
    Database.getSubstance dbC7 "symB" =
      .error (.recordNotFound "substance" "symB" 189) ∧
    Database.getSubstance dbC7 "nameA" = .ok substC7 ∧
    substC7.symbol = "symB" := by
  refine ⟨?_, ?_, ?_, rfl⟩ <;>
    simp [dbC7, Database.addSubstance, Database.containsSubstance,
      Database.getSubstance, mapInsert, mapFind, substC7]

/-- C7 (amended): the store is keyed by the record's name: after
`addSubstance(s)` on a store without an entry for `s.name`, the store
contains `s` under the key `s.name` and `getSubstance(s.name)` returns `s`;
likewise `addReaction`/`getReaction` by the reaction's name. -/
theorem claim_C7_amended_store_keyed_by_name (db : Database) (s : Substance)
    (r : Reaction)
    (hs : db.containsSubstance s.name = false)
    (hr : db.containsReaction r.name = false) :
    (db.addSubstance s).containsSubstance s.name = true ∧
    (db.addSubstance s).getSubstance s.name = .ok s ∧
    (db.addReaction r).containsReaction r.name = true ∧
    (db.addReaction r).getReaction r.name = .ok r := by
  have hns : mapFind db.substances_map s.name = none :=
    mapFind_eq_none_of_isSome_false _ _ hs
  have hnr : mapFind db.reactions_map r.name = none :=
    mapFind_eq_none_of_isSome_false _ _ hr
  refine ⟨?_, ?_, ?_, ?_⟩ <;>
    simp [Database.addSubstance, Database.addReaction,
      Database.containsSubstance, Database.containsReaction,
      Database.getSubstance, Database.getReaction, mapInsert, mapFind,
      hns, hnr]

/-- C7 amended witness: concrete records on the empty store. -/
theorem claim_C7_amended_witness :
    (Database.addSubstance {} substC7).containsSubstance "nameA" = true ∧
    (Database.addSubstance {} substC7).getSubstance "nameA" = .ok substC7 ∧
    (Database.addReaction {} reacC7).containsReaction "rnameA" = true ∧
    (Database.addReaction {} reacC7).getReaction "rnameA" = .ok reacC7 :=
  claim_C7_amended_store_keyed_by_name {} substC7 reacC7
    (by simp [Database.containsSubstance, mapFind])
    (by simp [Database.containsReaction, mapFind])

/-- C9: whenever the store contains a record under the key `"H+"` (stores
populated by `addSubstance` file every record under its name, which is what
the hydrogen check inspects), `thermoPropertiesSubstance` returns the
all-zero sentinel result immediately, dispatching no physical model. -/
theorem claim_C9_hydrogen_sentinel (eng : Engine) (n : Nat) (T P : ℚ)
    (hwf : eng.database.wfKeys)
    (hc : eng.database.containsSubstance "H+" = true) :
    thermoPropertiesSubstance eng (n + 1) T P "H+" =
      .ok { gibbs_energy := 0, enthalpy := 0, entropy := 0,
            heat_capacity_cp := 0, heat_capacity_cv := 0,
            helmholtz_energy := 0, internal_energy := 0, volume := 0 } := by
  rw [Database.containsSubstance] at hc
  obtain ⟨s, hfind⟩ := Option.isSome_iff_exists.mp hc
  have hname : s.name = "H+" := hwf.1 _ (mapFind_mem _ _ _ hfind)
  simp [thermoPropertiesSubstance, getThermoPreferences,
    Database.getSubstance, hfind, hname]

/-- C9 witness: the engine whose store holds the hydrogen ion record. -/
theorem claim_C9_witness :
    thermoPropertiesSubstance engC9 1 298 1 "H+" =
      .ok { gibbs_energy := 0, enthalpy := 0, entropy := 0,
            heat_capacity_cp := 0, heat_capacity_cv := 0,
            helmholtz_energy := 0, internal_energy := 0, volume := 0 } :=
  claim_C9_hydrogen_sentinel engC9 0 298 1
    (by
      constructor <;>
        simp [engC9, Database.wfKeys, Database.addSubstance, mapInsert,
          mapFind, substHplus])
    (by
      simp [engC9, Database.containsSubstance, Database.addSubstance,
        mapInsert, mapFind, substHplus])

/-- An unmatched generic-EoS code leaves the baseline result unchanged
(the `default` branch of the switch is commented out in the source). -/
theorem substanceGenEOSdispatch_unmatched (eng : Engine)
    (pref : ThermoPreferences) (T P : ℚ) (tps : ThermoPropertiesSubstance)
    (h1 : pref.method_genEOS ≠ .CTPM_CPT)
    (h2 : pref.method_genEOS ≠ .CTPM_HKF)
    (h3 : pref.method_genEOS ≠ .CTPM_HKFR) :
    substanceGenEOSdispatch eng pref T P tps = .ok tps := by
  unfold substanceGenEOSdispatch
  cases h : pref.method_genEOS <;> simp_all

/-- An unmatched temperature-correction code leaves the result unchanged. -/
theorem substanceTcorrDispatch_unmatched (models : Models)
    (pref : ThermoPreferences) (T P : ℚ) (tps : ThermoPropertiesSubstance)
    (h : pref.method_T ≠ .CTM_CHP) :
    substanceTcorrDispatch models pref T P tps = tps := by
  unfold substanceTcorrDispatch
  cases hm : pref.method_T <;> simp_all

/-- An unmatched pressure-correction code leaves the result unchanged. -/
theorem substancePcorrDispatch_unmatched (eng : Engine)
    (tpsFn : ℚ → ℚ → String → Except ThermoError ThermoPropertiesSubstance)
    (pref : ThermoPreferences) (T P : ℚ) (tps : ThermoPropertiesSubstance)
    (h : pref.method_P ∉ [MethodCorrP.CPM_AKI, .CPM_CEH, .CPM_VBE, .CPM_VBM,
      .CPM_CORK, .CPM_PRSV, .CPM_EMP, .CPM_SRK, .CPM_PR78, .CPM_STP,
      .CPM_CON, .CPM_OFF]) :
    substancePcorrDispatch eng tpsFn pref T P tps = .ok tps := by
  unfold substancePcorrDispatch
  cases hm : pref.method_P <;> simp_all

/-- C2 counterexample: for the stored substance `"U"`, whose generic-EoS,
temperature-correction and pressure-correction codes all match no handler,
the evaluator returns the unmodified default-constructed (all-zero) result
instead of raising any error: there is no `UnsupportedMethod` path in the
code (the `errorMethodNotFound` calls are commented out). -/
theorem claim_C2_counterexample :
    thermoPropertiesSubstance engC2 1 298 100000 "U" =
      .ok ({} : ThermoPropertiesSubstance) := by
  simp [thermoPropertiesSubstance, engC2, Database.addSubstance, mapInsert,
    mapFind, Database.getSubstance, getThermoPreferences, substU,
    substanceGenEOSdispatch, substanceTcorrDispatch, substancePcorrDispatch,
    substanceWaterDispatch, applyConventions, iequals, asciiLower,
    conventions, sampleModels]

/-- C2 (amended): for every stored non-solvent, non-vapor, non-hydrogen,
non-reaction-derived substance whose generic-EoS, temperature-correction
and pressure-correction codes all match no handler, the evaluator silently
falls through every switch and returns the unmodified default-constructed
result object (all fields zero), raising no error. -/
theorem claim_C2_amended_silent_fallthrough (eng : Engine) (n : Nat)
    (T P : ℚ) (sym : String) (subst : Substance)
    (h : eng.database.getSubstance sym = .ok subst)
    (hname : subst.name ≠ "H+")
    (hrd : subst.thermoCalculationType ≠ .REACDC)
    (hclass : subst.substanceClass ≠ .AQSOLVENT)
    (hg1 : subst.methodGenEOS ≠ .CTPM_CPT)
    (hg2 : subst.methodGenEOS ≠ .CTPM_HKF)
    (hg3 : subst.methodGenEOS ≠ .CTPM_HKFR)
    (ht : subst.method_T ≠ .CTM_CHP)
    (hp : subst.method_P ∉ [MethodCorrP.CPM_AKI, .CPM_CEH, .CPM_VBE,
      .CPM_VBM, .CPM_CORK, .CPM_PRSV, .CPM_EMP, .CPM_SRK, .CPM_PR78,
      .CPM_STP, .CPM_CON, .CPM_OFF]) :
    thermoPropertiesSubstance eng (n + 1) T P sym =
      .ok ({} : ThermoPropertiesSubstance) := by
  simp only [List.mem_cons, List.mem_singleton, not_or] at hp
  obtain ⟨hp1, hp2, hp3, hp4, hp5, hp6, hp7, hp8, hp9, hp10, hp11, hp12⟩ := hp
  simp [thermoPropertiesSubstance, getThermoPreferences, h, hname, hrd,
    hclass, hg1, hg2, hg3, substanceGenEOSdispatch_unmatched,
    substanceTcorrDispatch_unmatched, substancePcorrDispatch_unmatched,
    ht, hp1, hp2, hp3, hp4, hp5, hp6, hp7, hp8, hp9, hp10, hp11, hp12,
    applyConventions, iequals, asciiLower, conventions, mapFind]

/-- C2 amended witness: the substance `"U"` with unmatched codes. -/
theorem claim_C2_amended_witness :
    thermoPropertiesSubstance engC2 2 298 100000 "U" =
      .ok ({} : ThermoPropertiesSubstance) :=
  claim_C2_amended_silent_fallthrough engC2 1 298 100000 "U" substU
    (by simp [engC2, Database.getSubstance, Database.addSubstance,
      mapInsert, mapFind, substU])
    (by simp [substU]) (by simp [substU]) (by simp [substU])
    (by simp [substU]) (by simp [substU]) (by simp [substU])
    (by simp [substU]) (by simp [substU])

/-- C4 counterexample: for the stored reaction `"R4"` with temperature
code `CTM_MRB` (modified Ryzhenko-Bryzgalin) and pressure code `CPM_VKE`
(volume-vs-T family), the evaluator returns the Ryzhenko-Bryzgalin result
unmodified: the `return` inside the `CTM_MRB` case exits before the
pressure-correction switch, so the volume-based correction (which would
have produced a different value here) is never applied. -/
theorem claim_C4_counterexample :
    thermoPropertiesReaction engC4 300 1000 "R4" =
      .ok { reaction_gibbs_energy := 5 } ∧
    engC4.models.reactionVol_fT reacR4 300 1000 =
      { reaction_gibbs_energy := 7 } ∧
    ({ reaction_gibbs_energy := 5 } : ThermoPropertiesReaction) ≠
      { reaction_gibbs_energy := 7 } := by
  refine ⟨?_, ?_, ?_⟩
  · simp [thermoPropertiesReaction, engC4, dbC4, Database.addSubstance,
      Database.addReaction, mapInsert, mapFind, Database.getReaction,
      Database.getSubstance, reacR4, substH2O, sampleModels,
      propertiesSolvent, getThermoPreferences]
  · simp [engC4, sampleModels]
  · simp

/-- C4 (amended): `thermoPropertiesReaction` runs the pressure-correction
dispatch after the temperature-correction handler for every temperature
branch except the modified Ryzhenko-Bryzgalin model: the volume-vs-T family
(`CPM_VKE`/`CPM_VBE`) assigns its volume-based correction and the
null/constant-volume family (`CPM_NUL`/`CPM_CON`) is a no-op, but a
`CTM_MRB` reaction returns the Ryzhenko-Bryzgalin result directly, skipping
the pressure-correction dispatch entirely. -/
theorem claim_C4_amended_pressure_dispatch (eng : Engine) (T P : ℚ)
    (sym : String) (reac : Reaction)
    (h : eng.database.getReaction sym = .ok reac) :
    (reac.method_T = .CTM_MRB →
      thermoPropertiesReaction eng T P sym =
        (propertiesSolvent eng T P eng.solventSymbol).map
          (eng.models.reactionRyzhenkoBryzgalin reac T P)) ∧
    (reac.method_T ≠ .CTM_MRB →
      thermoPropertiesReaction eng T P sym =
        (reactionTbranchSpec eng T P reac).bind (fun tpr =>
          Except.ok
            (match reac.method_P with
            | .CPM_VKE | .CPM_VBE => eng.models.reactionVol_fT reac T P
            | _ => tpr))) := by
  constructor
  · intro hmrb
    simp only [thermoPropertiesReaction, h, exceptBindOk]
    rw [hmrb]
    cases hps : propertiesSolvent eng T P eng.solventSymbol <;> simp [hps]
  · intro hne
    simp only [thermoPropertiesReaction, h, exceptBindOk]
    cases hT : reac.method_T <;>
      first
        | exact absurd hT hne
        | (cases hP : reac.method_P <;>
            cases hps : propertiesSolvent eng T P eng.solventSymbol <;>
            simp_all [reactionTbranchSpec])

/-- C4 amended witness: the Ryzhenko-Bryzgalin reaction `"R4"`. -/
theorem claim_C4_amended_witness :
    (reacR4.method_T = .CTM_MRB →
      thermoPropertiesReaction engC4 300 1000 "R4" =
        (propertiesSolvent engC4 300 1000 engC4.solventSymbol).map
          (engC4.models.reactionRyzhenkoBryzgalin reacR4 300 1000)) ∧
    (reacR4.method_T ≠ .CTM_MRB →
      thermoPropertiesReaction engC4 300 1000 "R4" =
        (reactionTbranchSpec engC4 300 1000 reacR4).bind (fun tpr =>
          Except.ok
            (match reacR4.method_P with
            | .CPM_VKE | .CPM_VBE => engC4.models.reactionVol_fT reacR4 300 1000
            | _ => tpr))) :=
  claim_C4_amended_pressure_dispatch engC4 300 1000 "R4" reacR4
    (by simp [engC4, dbC4, Database.getReaction, Database.addSubstance,
      Database.addReaction, mapInsert, mapFind, reacR4, substH2O])

/-- Unfolded behaviour of `reacDCthermoProperties` when the reaction
lookup, the reaction evaluation and the reactant loop all succeed: the
accumulated result is divided fieldwise by `reactants[subst.symbol]`,
unconditionally (there is no zero test before the division). -/
theorem reacDC_spec (eng : Engine)
    (tpsFn : ℚ → ℚ → String → Except ThermoError ThermoPropertiesSubstance)
    (T P : ℚ) (subst : Substance) (reac : Reaction)
    (tpr : ThermoPropertiesReaction) (t : ThermoPropertiesSubstance)
    (h0 : subst.reactionSymbol ≠ "")
    (h1 : eng.database.getReaction subst.reactionSymbol = .ok reac)
    (h2 : thermoPropertiesReaction eng T P subst.reactionSymbol = .ok tpr)
    (h3 : reac.reactants.foldlM (reacDCstep tpsFn subst T P) (tpsOfTpr tpr) =
      .ok t) :
    reacDCthermoProperties eng tpsFn T P subst =
      .ok (tpsDivAll t (reacDCdivisor reac subst)) := by
  unfold reacDCthermoProperties
  rw [if_pos h0]
  simp [h1, h2, h3]

/-- Subtracting a `(-1)`-weighted contribution adds it. -/
theorem tpsSubScaled_neg_one (x y : ThermoPropertiesSubstance) :
    tpsSubScaled x y (-1) = tpsAdd x y := by
  simp [tpsSubScaled, tpsAdd, mul_neg_one, sub_neg_eq_add]

/-- Dividing every field by `1` changes nothing. -/
theorem tpsDivAll_one (x : ThermoPropertiesSubstance) :
    tpsDivAll x 1 = x := by
  simp [tpsDivAll]

/-- C8: when the reaction record of a reaction-derived substance contains
the substance's own symbol with a non-zero coefficient, the final
per-field division divides exactly by that non-zero coefficient; the
equation for the result is derived without any zero test (the code
performs no runtime check before dividing). -/
theorem claim_C8_division_by_own_coefficient (eng : Engine)
    (tpsFn : ℚ → ℚ → String → Except ThermoError ThermoPropertiesSubstance)
    (T P : ℚ) (subst : Substance) (reac : Reaction)
    (tpr : ThermoPropertiesReaction) (t : ThermoPropertiesSubstance) (c : ℚ)
    (h0 : subst.reactionSymbol ≠ "")
    (h1 : eng.database.getReaction subst.reactionSymbol = .ok reac)
    (h2 : thermoPropertiesReaction eng T P subst.reactionSymbol = .ok tpr)
    (h3 : reac.reactants.foldlM (reacDCstep tpsFn subst T P) (tpsOfTpr tpr) =
      .ok t)
    (hc : mapFind reac.reactants subst.symbol = some c)
    (hcz : c ≠ 0) :
    reacDCdivisor reac subst = c ∧
    reacDCdivisor reac subst ≠ 0 ∧
    reacDCthermoProperties eng tpsFn T P subst = .ok (tpsDivAll t c) := by
  have hd : reacDCdivisor reac subst = c := by
    simp [reacDCdivisor, hc]
  refine ⟨hd, hd ▸ hcz, ?_⟩
  rw [reacDC_spec eng tpsFn T P subst reac tpr t h0 h1 h2 h3, hd]

/-- C8 witness: substance X in reaction R with coefficient `1`. -/
theorem claim_C8_witness :
    reacDCdivisor reacR substX = 1 ∧
    reacDCdivisor reacR substX ≠ 0 ∧
    reacDCthermoProperties engC1 (fun _ _ _ => .ok {}) 300 1000 substX =
      .ok (tpsDivAll { gibbs_energy := 10, enthalpy := 20 } 1) :=
  claim_C8_division_by_own_coefficient engC1 (fun _ _ _ => .ok {}) 300 1000
    substX reacR { reaction_gibbs_energy := 10, reaction_enthalpy := 20 }
    { gibbs_energy := 10, enthalpy := 20 } 1
    (by simp [substX])
    (by simp [engC1, dbC1, Database.getReaction, Database.addSubstance,
      Database.addReaction, mapInsert, mapFind, substX, reacR])
    (by simp [thermoPropertiesReaction, engC1, dbC1, Database.addSubstance,
      Database.addReaction, mapInsert, mapFind, Database.getReaction,
      substX, reacR, sampleModels])
    (by simp [reacR, List.foldlM, reacDCstep, substX, tpsOfTpr, tpsSubScaled])
    (by simp [reacR, substX, mapFind])
    one_ne_zero

/-- C1: a reaction-derived substance X whose reaction R has reactants
`{X: 1, A: -1, B: -1}` evaluates to the reaction's properties seeded
fieldwise, minus the `(-1)`-weighted contributions of A and B (that is,
plus A's and B's substance properties), divided by X's own coefficient 1 —
so `substanceProperties(T,P,X) = reactionProperties(T,P,R) +
substanceProperties(T,P,A) + substanceProperties(T,P,B)` in every scalar
field. -/
theorem claim_C1_reaction_derived_closure (eng : Engine) (n : Nat)
    (T P : ℚ) (X A B R : String) (sX : Substance) (reac : Reaction)
    (tpr : ThermoPropertiesReaction) (a b : ThermoPropertiesSubstance)
    (hX : eng.database.getSubstance X = .ok sX)
    (hXname : sX.name ≠ "H+")
    (hXrd : sX.thermoCalculationType = .REACDC)
    (hXsym : sX.symbol = X)
    (hXr : sX.reactionSymbol = R)
    (hRne : R ≠ "")
    (hR : eng.database.getReaction R = .ok reac)
    (hreac : reac.reactants = [(X, 1), (A, -1), (B, -1)])
    (hAX : A ≠ X) (hBX : B ≠ X)
    (htpr : thermoPropertiesReaction eng T P R = .ok tpr)
    (ha : thermoPropertiesSubstance eng n T P A = .ok a)
    (hb : thermoPropertiesSubstance eng n T P B = .ok b) :
    thermoPropertiesSubstance eng (n + 1) T P X =
      .ok (tpsAdd (tpsAdd (tpsOfTpr tpr) a) b) := by
  have h0 : sX.reactionSymbol ≠ "" := by rw [hXr]; exact hRne
  have hR2 : eng.database.getReaction sX.reactionSymbol = .ok reac := by
    rw [hXr]; exact hR
  have htpr2 : thermoPropertiesReaction eng T P sX.reactionSymbol =
      .ok tpr := by
    rw [hXr]; exact htpr
  have hfold : reac.reactants.foldlM
      (reacDCstep (fun T2 P2 s => thermoPropertiesSubstance eng n T2 P2 s)
        sX T P) (tpsOfTpr tpr) =
      .ok (tpsSubScaled (tpsSubScaled (tpsOfTpr tpr) a (-1)) b (-1)) := by
    rw [hreac]
    simp [List.foldlM, reacDCstep, hXsym, hAX, hBX, ha, hb]
  have hspec := reacDC_spec eng
    (fun T2 P2 s => thermoPropertiesSubstance eng n T2 P2 s) T P sX reac tpr
    _ h0 hR2 htpr2 hfold
  have hdiv : reacDCdivisor reac sX = 1 := by
    simp [reacDCdivisor, hreac, hXsym, mapFind]
  rw [hdiv, tpsDivAll_one, tpsSubScaled_neg_one, tpsSubScaled_neg_one]
    at hspec
  simp only [thermoPropertiesSubstance, getThermoPreferences, hX,
    exceptBindOk]
  simp only [exceptPure]
  simp [hXname, hXrd]
  exact hspec

/-- C1 witness: X defined by R over A and B in the concrete store. -/
theorem claim_C1_witness :
    thermoPropertiesSubstance engC1 2 300 1000 "X" =
      .ok (tpsAdd (tpsAdd
        (tpsOfTpr { reaction_gibbs_energy := 10, reaction_enthalpy := 20 })
        {}) {}) :=
  claim_C1_reaction_derived_closure engC1 1 300 1000 "X" "A" "B" "R"
    substX reacR { reaction_gibbs_energy := 10, reaction_enthalpy := 20 }
    {} {}
    (by simp [engC1, dbC1, Database.getSubstance, Database.addSubstance,
      Database.addReaction, mapInsert, mapFind, substX, substA, substB])
    (by simp [substX]) (by simp [substX]) (by simp [substX])
    (by simp [substX]) (by simp)
    (by simp [engC1, dbC1, Database.getReaction, Database.addSubstance,
      Database.addReaction, mapInsert, mapFind, substX, substA, substB,
      reacR])
    (by simp [reacR]) (by simp) (by simp)
    (by simp [thermoPropertiesReaction, engC1, dbC1, Database.addSubstance,
      Database.addReaction, mapInsert, mapFind, Database.getReaction,
      substX, substA, substB, reacR, sampleModels])
    (by simp [thermoPropertiesSubstance, engC1, dbC1, Database.addSubstance,
      Database.addReaction, mapInsert, mapFind, Database.getSubstance,
      substX, substA, substB, reacR, getThermoPreferences,
      substanceGenEOSdispatch, substanceTcorrDispatch,
      substancePcorrDispatch, substanceWaterDispatch, applyConventions,
      iequals, asciiLower, conventions, sampleModels])
    (by simp [thermoPropertiesSubstance, engC1, dbC1, Database.addSubstance,
      Database.addReaction, mapInsert, mapFind, Database.getSubstance,
      substX, substA, substB, reacR, getThermoPreferences,
      substanceGenEOSdispatch, substanceTcorrDispatch,
      substancePcorrDispatch, substanceWaterDispatch, applyConventions,
      iequals, asciiLower, conventions, sampleModels])

/-- A memo table is coherent when every cached value is the value of the
underlying function at its key. -/
def memoWf {β : Type} (f : MemoKey → β) (m : List (MemoKey × β)) : Prop :=
  ∀ p ∈ m, p.2 = f p.1

/-- A lookup in a coherent table returns the function's value. -/
theorem memoFind_wf {β : Type} (f : MemoKey → β) :
    ∀ (m : List (MemoKey × β)), memoWf f m →
      ∀ k v, memoFind m k = some v → v = f k := by
  intro m
  induction m with
  | nil =>
    intro _ k v h
    simp [memoFind] at h
  | cons p rest ih =>
    intro hwf k v h
    unfold memoFind at h
    by_cases hk : p.1 = k
    · rw [if_pos hk] at h
      rw [← Option.some_inj.mp h, hwf p (List.mem_cons_self _ _), hk]
    · rw [if_neg hk] at h
      exact ih (fun q hq => hwf q (List.mem_cons_of_mem _ hq)) k v h

/-- A memoized call over a coherent table returns the underlying
function's value, whether it hits or misses the cache. -/
theorem memoCall_value {β : Type} (f : MemoKey → β)
    (m : List (MemoKey × β)) (k : MemoKey) (hwf : memoWf f m) :
    (memoCall f m k).1 = f k := by
  unfold memoCall
  cases hfind : memoFind m k with
  | none => rfl
  | some v => exact memoFind_wf f m hwf k v hfind

/-- A memoized call keeps the table coherent. -/
theorem memoCall_wf {β : Type} (f : MemoKey → β)
    (m : List (MemoKey × β)) (k : MemoKey) (hwf : memoWf f m) :
    memoWf f (memoCall f m k).2.1 := by
  unfold memoCall
  cases hfind : memoFind m k with
  | none =>
    intro p hp
    rcases List.mem_cons.mp hp with h | h
    · rw [h]
    · exact hwf p h
  | some v => exact hwf

/-- After a memoized call at `k`, the table has an entry for `k`. -/
theorem memoCall_self_mem {β : Type} (f : MemoKey → β)
    (m : List (MemoKey × β)) (k : MemoKey) :
    (memoFind (memoCall f m k).2.1 k).isSome = true := by
  unfold memoCall
  cases hfind : memoFind m k with
  | some v => simp [hfind]
  | none => simp [memoFind]

/-- A memoized call preserves existing table entries. -/
theorem memoCall_preserves_mem {β : Type} (f : MemoKey → β)
    (m : List (MemoKey × β)) (k q : MemoKey)
    (h : (memoFind m q).isSome = true) :
    (memoFind (memoCall f m k).2.1 q).isSome = true := by
  unfold memoCall
  cases hfind : memoFind m k with
  | some v => exact h
  | none =>
    unfold memoFind
    by_cases hk : k = q
    · simp [hk]
    · simp [hk, h]

/-- A cache hit does not invoke the underlying function. -/
theorem memoCall_flag_false_of_mem {β : Type} (f : MemoKey → β)
    (m : List (MemoKey × β)) (k : MemoKey)
    (h : (memoFind m k).isSome = true) :
    (memoCall f m k).2.2 = false := by
  unfold memoCall
  cases hfind : memoFind m k with
  | some v => simp [hfind]
  | none => rw [hfind] at h; simp at h

/-- Observational equality of the memoized wrapper: over a coherent
table, every call in a sequence returns exactly the underlying function's
value. -/
theorem memoResults_map {β : Type} (f : MemoKey → β) :
    ∀ (ks : List MemoKey) (m : List (MemoKey × β)), memoWf f m →
      memoResults f m ks = ks.map f := by
  intro ks
  induction ks with
  | nil =>
    intro m _
    rfl
  | cons k ks ih =>
    intro m hwf
    have htail := ih (memoCall f m k).2.1 (memoCall_wf f m k hwf)
    unfold memoResults at htail ⊢
    simp only [memoSteps, List.map_cons, List.map, memoCall_value f m k hwf,
      htail]

/-- With an entry for `k` already cached, a call sequence never invokes
the underlying function at `k`. -/
theorem countInvocations_zero_of_mem {β : Type} (f : MemoKey → β) :
    ∀ (ks : List MemoKey) (m : List (MemoKey × β)) (k : MemoKey),
      (memoFind m k).isSome = true → countInvocations f m ks k = 0 := by
  intro ks
  induction ks with
  | nil =>
    intro m k _
    rfl
  | cons q ks ih =>
    intro m k h
    have htail := ih (memoCall f m q).2.1 k (memoCall_preserves_mem f m q k h)
    unfold countInvocations at htail ⊢
    unfold memoSteps
    rw [List.countP_cons, htail]
    by_cases hk : q = k
    · have hflag : (memoCall f m q).2.2 = false := by
        apply memoCall_flag_false_of_mem
        rw [hk]
        exact h
      simp [hflag]
    · simp [hk]

/-- Each distinct argument tuple triggers at most one invocation of the
underlying function in any call sequence. -/
theorem countInvocations_le_one {β : Type} (f : MemoKey → β) :
    ∀ (ks : List MemoKey) (m : List (MemoKey × β)) (k : MemoKey),
      countInvocations f m ks k ≤ 1 := by
  intro ks
  induction ks with
  | nil =>
    intro m k
    simp [countInvocations, memoSteps]
  | cons q ks ih =>
    intro m k
    unfold countInvocations
    unfold memoSteps
    rw [List.countP_cons]
    by_cases hk : q = k
    · subst hk
      by_cases hfound : (memoFind m q).isSome = true
      · have hflag : (memoCall f m q).2.2 = false :=
          memoCall_flag_false_of_mem f m q hfound
        have htail := ih (memoCall f m q).2.1 q
        unfold countInvocations at htail
        simp [hflag]
        exact htail
      · have htail0 := countInvocations_zero_of_mem f ks (memoCall f m q).2.1
          q (memoCall_self_mem f m q)
        unfold countInvocations at htail0
        rw [htail0]
        cases hflag : (memoCall f m q).2.2 <;> simp
    · have htail := ih (memoCall f m q).2.1 k
      unfold countInvocations at htail
      simp [hk]
      exact htail

/-- C3: the memoized wrapper (modelled from §4.1) is observationally equal
to its underlying function — starting from the empty cache of a fresh
evaluator instance, every call of a sequence returns exactly the
underlying function's value for its `(T, P_target, P_accum, symbol)` tuple,
and each distinct tuple invokes the underlying computation at most once.
Instantiated to each of the four property functions the engine wraps at
construction: substance, solvent, electro-solvent and reaction. -/
theorem claim_C3_memoization_transparent (β : Type) (f : MemoKey → β)
    (ks : List MemoKey) (k : MemoKey) (eng : Engine) (n : Nat) :
    memoResults f [] ks = ks.map f ∧
    countInvocations f [] ks k ≤ 1 ∧
    memoResults (fun q => thermoPropertiesSubstance eng n q.T q.Paccum q.symbol)
      [] ks =
      ks.map (fun q => thermoPropertiesSubstance eng n q.T q.Paccum q.symbol) ∧
    memoResults (fun q => propertiesSolvent eng q.T q.Paccum q.symbol) [] ks =
      ks.map (fun q => propertiesSolvent eng q.T q.Paccum q.symbol) ∧
    memoResults (fun q => electroPropertiesSolvent eng q.T q.Paccum q.symbol)
      [] ks =
      ks.map (fun q => electroPropertiesSolvent eng q.T q.Paccum q.symbol) ∧
    memoResults (fun q => thermoPropertiesReaction eng q.T q.Paccum q.symbol)
      [] ks =
      ks.map (fun q => thermoPropertiesReaction eng q.T q.Paccum q.symbol) := by
  have hempty : ∀ (γ : Type) (g : MemoKey → γ), memoWf g
      ([] : List (MemoKey × γ)) := by
    intro γ g p hp
    simp at hp
  exact ⟨memoResults_map f ks [] (hempty β f),
    countInvocations_le_one f ks [] k,
    memoResults_map _ ks [] (hempty _ _),
    memoResults_map _ ks [] (hempty _ _),
    memoResults_map _ ks [] (hempty _ _),
    memoResults_map _ ks [] (hempty _ _)⟩

/-- A string is of length zero exactly when it is empty. -/
theorem string_length_zero_iff (s : String) : s.length = 0 ↔ s = "" := by
  cases s with
  | mk data => simp [String.length, String.ext_iff, List.length_eq_zero]

/-- Appending to a non-empty file writes one data row and no header. -/
theorem csv_output_nonempty_append (render : ℚ → String) (file : String)
    (wt : WaterThermoState) (h : file ≠ "") :
    outputSteamConventionH2OProp render file wt = file ++ csvRow render wt := by
  simp only [outputSteamConventionH2OProp]
  rw [if_neg (fun hz => h ((string_length_zero_iff file).mp hz))]

/-- Appending anything to a non-empty string stays non-empty. -/
theorem append_ne_empty_left (s t : String) (h : s ≠ "") : s ++ t ≠ "" := by
  intro hc
  apply h
  have hlen := congrArg String.length hc
  rw [String.length_append] at hlen
  have h0 : ("" : String).length = 0 := rfl
  rw [h0] at hlen
  exact (string_length_zero_iff s).mp (by omega)

/-- Running the export repeatedly over an already non-empty file appends
the data rows and nothing else. -/
theorem csv_runs_nonempty (render : ℚ → String) :
    ∀ (wts : List WaterThermoState) (file : String), file ≠ "" →
      outputSteamConventionRuns render file wts =
        file ++ csvRowsConcat render wts := by
  intro wts
  induction wts with
  | nil =>
    intro file _
    simp [outputSteamConventionRuns, csvRowsConcat, String.append_empty]
  | cons wt rest ih =>
    intro file h
    simp only [outputSteamConventionRuns]
    rw [csv_output_nonempty_append render file wt h]
    rw [ih (file ++ csvRow render wt) (append_ne_empty_left file _ h)]
    simp only [csvRowsConcat]
    rw [String.append_assoc]

/-- C10: starting from a fresh (empty) file, a sequence of N export calls
produces exactly one header line followed by the N data rows (each the
eleven comma-separated rendered values of its record, in the order
T, P, Cp, Cv, density, H, S, G, A, U, V); a call on an already non-empty
file appends its data row and writes no new header. -/
theorem claim_C10_csv_export (render : ℚ → String)
    (wts : List WaterThermoState) (file : String) (wt : WaterThermoState)
    (hne : wts ≠ []) (hfile : file ≠ "") :
    outputSteamConventionRuns render "" wts =
      csvHeader ++ csvRowsConcat render wts ∧
    outputSteamConventionH2OProp render file wt =
      file ++ csvRow render wt := by
  constructor
  · cases wts with
    | nil => exact absurd rfl hne
    | cons w rest =>
      simp only [outputSteamConventionRuns]
      have hfirst : outputSteamConventionH2OProp render "" w =
          csvHeader ++ csvRow render w := by
        simp only [outputSteamConventionH2OProp]
        simp
      rw [hfirst]
      have hne2 : csvHeader ++ csvRow render w ≠ "" :=
        append_ne_empty_left csvHeader _ (by simp [csvHeader])
      rw [csv_runs_nonempty render rest _ hne2]
      simp only [csvRowsConcat]
      rw [String.append_assoc]
  · exact csv_output_nonempty_append render file wt hfile

/-- C10 witness: two rows into a fresh file, one row onto `"x"`. -/
theorem claim_C10_witness :
    outputSteamConventionRuns (fun _ => "v") "" [{}, {}] =
      csvHeader ++ csvRowsConcat (fun _ => "v") [{}, {}] ∧
    outputSteamConventionH2OProp (fun _ => "v") "x" {} =
      "x" ++ csvRow (fun _ => "v") {} :=
  claim_C10_csv_export (fun _ => "v") [{}, {}] "x" {}
    (by simp) (by decide)

end ThermoFun
